import Mathlib

/-!
Verification of the asset lifecycle manager of the Pettus-Plots data server
(src/app.py, src/server.py) against its natural-language specification.

The embedding is shallow: the SQLite table is a list of rows, the image
directory is a list of file paths, the external renderer / filesystem /
database failure modes are explicit parameters of each generation cycle, and
Python exceptions are an explicit Except layer that the code's broad
try/except blocks catch.  All definitions below are translated from the
Python source; the doc comment of each names the function it embeds.
-/

set_option maxRecDepth 100000
set_option maxHeartbeats 2000000

namespace PettusPlots

/-- ASCII uppercase of one character; Python str.upper restricted to the
ASCII inputs that occur in this program. -/
def upChar (c : Char) : Char :=
  if 97 ≤ c.toNat ∧ c.toNat ≤ 122 then Char.ofNat (c.toNat - 32) else c

/-- Python str.upper (all satellite identifiers in this program are ASCII). -/
def pyUpper (s : String) : String := String.mk (s.data.map upChar)

/-- Fuel-indexed left-to-right non-overlapping replacement, the semantics of
Python str.replace for a non-empty pattern (every pattern in this program is
non-empty). -/
def replaceAux (rep pat : List Char) : Nat → List Char → List Char
  | 0, s => s
  | _ + 1, [] => []
  | fuel + 1, c :: cs =>
    if pat ≠ [] ∧ pat.isPrefixOf (c :: cs) = true then
      rep ++ replaceAux rep pat fuel ((c :: cs).drop pat.length)
    else
      c :: replaceAux rep pat fuel cs

/-- Python s.replace(pat, rep). -/
def pyReplace (s pat rep : String) : String :=
  String.mk (replaceAux rep.data pat.data s.data.length s.data)

/-- The character for the decimal digit n % 10. -/
def digitChar (n : Nat) : Char := Char.ofNat (48 + n % 10)

/-- Two-digit zero-padded decimal rendering (Python %m, %d, %H, %M). -/
def pad2 (n : Nat) : List Char := [digitChar (n / 10), digitChar n]

/-- Four-digit zero-padded decimal rendering (Python %Y for years ≤ 9999). -/
def pad4 (n : Nat) : List Char :=
  [digitChar (n / 1000), digitChar (n / 100), digitChar (n / 10), digitChar n]

/-- A capture instant at the resolution the program's formatting, fingerprint
and ordering logic observe. -/
structure Timestamp where
  year : Nat
  month : Nat
  day : Nat
  hour : Nat
  minute : Nat
deriving DecidableEq, Repr

/-- Python timestamp.strftime with format YYYYMMDD_HHMMZ, used for time_str
and inside generate_descriptive_url. -/
def strftimeZ (t : Timestamp) : String :=
  String.mk (pad4 t.year ++ pad2 t.month ++ pad2 t.day ++
    '_' :: (pad2 t.hour ++ pad2 t.minute ++ ['Z']))

/-- Python rounded_dt.strftime with format YYYYMMDD_HHMM, used inside
calculate_data_hash. -/
def strftimeNoZ (t : Timestamp) : String :=
  String.mk (pad4 t.year ++ pad2 t.month ++ pad2 t.day ++
    '_' :: (pad2 t.hour ++ pad2 t.minute))

/-- Numeric value of a digit character. -/
def digitVal (c : Char) : Nat := c.toNat - 48

/-- Whether a character is a decimal digit. -/
def isDigitChar (c : Char) : Bool := 48 ≤ c.toNat && c.toNat ≤ 57

/-- datetime.strptime(s, YYYYMMDD_HHMMZ) from calculate_data_hash: exactly
eight digits, an underscore, four digits and a literal Z, with field range
checks; none models the ValueError path.  (Python additionally rejects days
that do not exist in the given month; no input of this program exercises
that difference.) -/
def parseTimeStr (s : String) : Option Timestamp :=
  match s.data with
  | [y1, y2, y3, y4, m1, m2, d1, d2, u, h1, h2, n1, n2, z] =>
    if u = '_' ∧ z = 'Z' ∧
        (isDigitChar y1 && isDigitChar y2 && isDigitChar y3 && isDigitChar y4 &&
         isDigitChar m1 && isDigitChar m2 && isDigitChar d1 && isDigitChar d2 &&
         isDigitChar h1 && isDigitChar h2 && isDigitChar n1 && isDigitChar n2) = true then
      let y := 1000 * digitVal y1 + 100 * digitVal y2 + 10 * digitVal y3 + digitVal y4
      let mo := 10 * digitVal m1 + digitVal m2
      let d := 10 * digitVal d1 + digitVal d2
      let hh := 10 * digitVal h1 + digitVal h2
      let mi := 10 * digitVal n1 + digitVal n2
      if 1 ≤ y ∧ 1 ≤ mo ∧ mo ≤ 12 ∧ 1 ≤ d ∧ d ≤ 31 ∧ hh ≤ 23 ∧ mi ≤ 59 then
        some ⟨y, mo, d, hh, mi⟩
      else none
    else none
  | _ => none

/-- ImageManager.calculate_data_hash (app.py lines 153-166).  MD5 is modeled
as the identity on the hash input string: the program only ever compares the
hashes for equality, and the quantization logic that decides every claim is
embedded exactly. -/
def calculate_data_hash (timestamp_str satellite : String) : String :=
  match parseTimeStr timestamp_str with
  | some dt =>
    let minutes := dt.minute / 3 * 3
    let rounded : Timestamp := { dt with minute := minutes }
    satellite ++ "_" ++ strftimeNoZ rounded
  | none => satellite ++ "_" ++ timestamp_str

/-- The sector_map dictionary lookup with default (app.py lines 128-133). -/
def sector_map (sector : String) : String :=
  match sector with
  | "F" => "FullDisk"
  | "C" => "CONUS"
  | "M" => "Mesoscale"
  | _ => sector

/-- The product_map dictionary lookup with default (app.py lines 136-143). -/
def product_map (product : String) : String :=
  match product with
  | "ABI-L2-MCMIPF" => "Multichannel"
  | "ABI-L2-MCMIPC" => "Multichannel"
  | "ABI-L2-MCMIPM" => "Multichannel"
  | "ABI-L1b-Rad" => "Radiance"
  | "MOCK" => "MockData"
  | _ => product

/-- ImageManager.generate_descriptive_url (app.py lines 117-151). -/
def generate_descriptive_url (timestamp : Timestamp)
    (satellite sector product band : String) : String :=
  let sat_clean := pyUpper (pyReplace (pyReplace satellite "noaa-" "") "-" "")
  let time_str := strftimeZ timestamp
  let sector_name := sector_map sector
  let product_name := product_map product
  let band_info := if band = "13" then "Band" ++ band ++ "_CleanIR" else "Band" ++ band
  "/api/goes/" ++ sat_clean ++ "_" ++ sector_name ++ "_" ++ band_info ++ "_" ++
    product_name ++ "_" ++ time_str

/-- The product_map dictionary of server.py (lines 130-135), which has no
MOCK entry. -/
def product_map_server (product : String) : String :=
  match product with
  | "ABI-L2-MCMIPF" => "Multichannel"
  | "ABI-L2-MCMIPC" => "Multichannel"
  | "ABI-L2-MCMIPM" => "Multichannel"
  | "ABI-L1b-Rad" => "Radiance"
  | _ => product

/-- ImageManager.generate_descriptive_url of server.py (lines 111-144),
whose namespace is /goes instead of /api/goes. -/
def generate_descriptive_url_server (timestamp : Timestamp)
    (satellite sector product band : String) : String :=
  let sat_clean := pyUpper (pyReplace (pyReplace satellite "noaa-" "") "-" "")
  let time_str := strftimeZ timestamp
  let sector_name := sector_map sector
  let product_name := product_map_server product
  let band_info := if band = "13" then "Band" ++ band ++ "_CleanIR" else "Band" ++ band
  "/goes/" ++ sat_clean ++ "_" ++ sector_name ++ "_" ++ band_info ++ "_" ++
    product_name ++ "_" ++ time_str

/-- One row of the images table (app.py lines 52-68). -/
structure ImageRow where
  id : Nat
  filename : String
  filepath : String
  timestamp : Timestamp
  satellite : String
  sector : String
  product : String
  band : String
  url_path : String
  custom_text : String
  file_size : Nat
  data_hash : String
deriving DecidableEq, Repr

/-- Errors sqlite3 can raise on an INSERT: IntegrityError for a uniqueness
constraint violation, OperationalError for any other database failure. -/
inductive DbErr where
  | integrity
  | operational
deriving DecidableEq, Repr

/-- Whether inserting a row with the given filename and url_path violates a
UNIQUE constraint of the images table.  The schema (app.py lines 52-68)
declares UNIQUE on filename and url_path only; filepath and data_hash carry
no constraint. -/
def violatesUnique (db : List ImageRow) (filename url_path : String) : Bool :=
  db.any (fun r => r.filename = filename || r.url_path = url_path)

/-- The INSERT INTO images statement (app.py lines 221-229): the id is
assigned by AUTOINCREMENT, the row is appended, and the statement raises
IntegrityError exactly when a schema UNIQUE constraint is violated.  The
opFail flag lets the environment inject an unrelated database failure. -/
def insertImage (db : List ImageRow) (row : ImageRow) (opFail : Bool) :
    Except DbErr (List ImageRow) :=
  if violatesUnique db row.filename row.url_path then .error .integrity
  else if opFail then .error .operational
  else .ok (db ++ [row])

/-- ImageManager.check_if_frame_exists (app.py lines 168-175): COUNT of rows
with the given data_hash is positive. -/
def check_if_frame_exists (db : List ImageRow) (data_hash : String) : Bool :=
  db.any (fun r => r.data_hash = data_hash)

/-- DELETE FROM images WHERE id = ? (app.py line 386). -/
def deleteById (db : List ImageRow) (i : Nat) : List ImageRow :=
  db.filter (fun r => r.id ≠ i)

/-- The joint state of the SQLite database and the filesystem: the rows of
the images table in insertion (rowid) order, the AUTOINCREMENT counter, and
the set of file paths that currently exist on disk. -/
structure Sys where
  db : List ImageRow
  nextId : Nat
  files : List String
deriving DecidableEq, Repr

/-- Filesystem file creation (set semantics: moving onto an existing path
overwrites it). -/
def addFile (p : String) (fs : List String) : List String :=
  if p ∈ fs then fs else p :: fs

/-- MAX_IMAGES (app.py line 30). -/
def MAX_IMAGES : Nat := 500

/-- The ≤ order on capture instants, component-lexicographic; this is the
order ORDER BY timestamp ASC observes on the zero-padded DATETIME strings
sqlite stores. -/
def tsLe (a b : Timestamp) : Prop :=
  a.year < b.year ∨ (a.year = b.year ∧
    (a.month < b.month ∨ (a.month = b.month ∧
      (a.day < b.day ∨ (a.day = b.day ∧
        (a.hour < b.hour ∨ (a.hour = b.hour ∧ a.minute ≤ b.minute)))))))

instance (a b : Timestamp) : Decidable (tsLe a b) := by
  unfold tsLe; exact inferInstance

/-- The strict version of the capture-instant order. -/
def tsLt (a b : Timestamp) : Prop := tsLe a b ∧ ¬ tsLe b a

/-- The ≤ order lifted to rows. -/
def rowTsLe (a b : ImageRow) : Prop := tsLe a.timestamp b.timestamp

instance (a b : ImageRow) : Decidable (rowTsLe a b) := by
  unfold rowTsLe; exact inferInstance

/-- The eviction order the spec names: smaller captureTimestamp first, ties
broken by smaller id (insertion order). -/
def rowLexLt (a b : ImageRow) : Prop :=
  tsLt a.timestamp b.timestamp ∨ (a.timestamp = b.timestamp ∧ a.id < b.id)

/-- The result of SELECT id, filepath FROM images ORDER BY timestamp ASC
(app.py lines 375-379), modeled as a stable sort of the table scan: rows
with equal timestamps are returned in rowid (insertion) order. -/
def orderByTsAsc (db : List ImageRow) : List ImageRow :=
  db.insertionSort rowTsLe

/-- The per-row body of the eviction loop of cleanup_old_images (app.py
lines 382-389): inside one try block, if the file exists it is removed, and
only then is the row deleted; an os.remove failure (ok p = false) raises,
skipping the row's DELETE, and the loop continues with the next row. -/
def evictLoop (ok : String → Bool) :
    List ImageRow → List ImageRow → List String → List ImageRow × List String
  | [], db, files => (db, files)
  | r :: rest, db, files =>
    if r.filepath ∈ files then
      if ok r.filepath then
        evictLoop ok rest (deleteById db r.id) (files.erase r.filepath)
      else
        evictLoop ok rest db files
    else
      evictLoop ok rest (deleteById db r.id) files

/-- ImageManager.cleanup_old_images (app.py lines 365-392).  ok reports
whether os.remove succeeds on a given path. -/
def cleanup_old_images (st : Sys) (ok : String → Bool) : Sys :=
  if st.db.length > MAX_IMAGES then
    let excess_count := st.db.length - MAX_IMAGES
    let old_images := (orderByTsAsc st.db).take excess_count
    let res := evictLoop ok old_images st.db st.files
    { st with db := res.1, files := res.2 }
  else st

/-- The outcome of the external renderer call create_professional_band13_plot:
it can raise, return a falsy path or a path to no file, or produce a file of
a given size at a path it controls. -/
inductive RenderResult where
  | raised
  | noFile
  | ok (saved_path : String) (file_size : Nat)
deriving DecidableEq, Repr

/-- Everything outside the store that one generation cycle observes: the
renderer outcome, the wall clock, the caption, and the success of each
fallible filesystem / database operation the cycle performs. -/
structure CycleEnv where
  render : RenderResult
  now : Timestamp
  custom_text : Option String
  removeRawOk : Bool
  moveOk : Bool
  dbErr : Bool
  evictRemoveOk : String → Bool

/-- The Python exceptions the generation cycle can encounter. -/
inductive PyErr where
  | renderError
  | osError
  | integrityError
  | dbError
deriving DecidableEq, Repr

/-- The satellite constant of generate_real_goes_image (app.py line 192). -/
def SATELLITE : String := "GOES-19"

/-- The fingerprint a cycle at instant ts computes:
calculate_data_hash(timestamp.strftime(YYYYMMDD_HHMMZ), GOES-19). -/
def fingerprintAt (ts : Timestamp) : String :=
  calculate_data_hash (strftimeZ ts) SATELLITE

/-- The URL path a cycle at instant ts computes (app.py line 208). -/
def urlAt (ts : Timestamp) : String :=
  generate_descriptive_url ts SATELLITE "F" "ABI-L2-MCMIPF" "13"

/-- The filename a cycle at instant ts computes (app.py line 211). -/
def filenameAt (ts : Timestamp) : String :=
  pyReplace (urlAt ts) "/api/goes/" "" ++ ".png"

/-- The canonical path a cycle at instant ts computes:
os.path.join(IMAGE_DIR, filename) with IMAGE_DIR = images (app.py line 212). -/
def newPathAt (ts : Timestamp) : String :=
  "images/" ++ filenameAt ts

/-- The part of generate_real_goes_image after the advisory duplicate check
(app.py lines 202-240), parameterized by the value that check returned, for
a render that produced the file saved_path.  Errors carry the state at the
instant of the raise, since side effects up to that point persist. -/
def cycleAfterCheck (dup : Bool) (st : Sys) (env : CycleEnv)
    (saved_path : String) (file_size : Nat) :
    Except (Sys × PyErr) (Sys × Option String × Option String) :=
  if dup then
    -- os.remove(saved_path) then return None, None
    if env.removeRawOk then
      .ok ({ st with files := st.files.erase saved_path }, none, none)
    else
      .error (st, .osError)
  else
    let url_path := urlAt env.now
    let filename := filenameAt env.now
    let new_path := newPathAt env.now
    -- shutil.move(saved_path, new_path)
    if env.moveOk then
      let st1 : Sys := { st with files := addFile new_path (st.files.erase saved_path) }
      let row : ImageRow :=
        { id := st1.nextId, filename := filename, filepath := new_path,
          timestamp := env.now, satellite := SATELLITE, sector := "F",
          product := "ABI-L2-MCMIPF", band := "13", url_path := url_path,
          custom_text := env.custom_text.getD "", file_size := file_size,
          data_hash := fingerprintAt env.now }
      match insertImage st1.db row env.dbErr with
      | .ok db2 =>
        let st2 : Sys := { st1 with db := db2, nextId := st1.nextId + 1 }
        let st3 := cleanup_old_images st2 env.evictRemoveOk
        .ok (st3, some new_path, some url_path)
      | .error .integrity => .error (st1, .integrityError)
      | .error .operational => .error (st1, .dbError)
    else
      .error (st, .osError)

/-- The body of ImageManager.generate_real_goes_image (app.py lines 181-243),
up to but excluding the enclosing try/except. -/
def cycleBody (st : Sys) (env : CycleEnv) :
    Except (Sys × PyErr) (Sys × Option String × Option String) :=
  match env.render with
  | .raised => .error (st, .renderError)
  | .noFile => .ok (st, none, none)
  | .ok saved_path file_size =>
    let st0 : Sys := { st with files := addFile saved_path st.files }
    let data_hash := fingerprintAt env.now
    cycleAfterCheck (check_if_frame_exists st0.db data_hash) st0 env saved_path file_size

/-- ImageManager.generate_real_goes_image (app.py lines 177-249): the body
wrapped in the broad try/except that logs and returns (None, None). -/
def generate_real_goes_image (st : Sys) (env : CycleEnv) :
    Sys × Option String × Option String :=
  match cycleBody st env with
  | .ok r => r
  | .error (st1, _) => (st1, none, none)

/-- ImageManager.generate_image (app.py lines 354-363) in the deployment
where the GOES plotter imported (GOES_AVAILABLE = True), so the real path is
taken; its own try/except has nothing left to catch because
generate_real_goes_image already catches every exception. -/
def generate_image (st : Sys) (env : CycleEnv) :
    Sys × Option String × Option String :=
  generate_real_goes_image st env

/-- The JSON responses of the manual-trigger endpoint. -/
inductive ApiResponse where
  | created (url : String)
  | duplicateOrFailed
deriving DecidableEq, Repr

/-- The POST /api/goes/generate handler generate_new_image (app.py lines
573-601): a truthy (filepath, url_path) pair yields the success response,
anything else yields the single combined error response with HTTP 200
(the code comment: return 200 since this is normal behavior). -/
def generate_new_image (st : Sys) (env : CycleEnv) : Sys × ApiResponse :=
  let r := generate_image st env
  match r.2 with
  | (some _, some up) => (r.1, .created up)
  | _ => (r.1, .duplicateOrFailed)

/-- The interleaving of two concurrent generation cycles in which both
advisory duplicate checks read the database before either insert commits
(the race window named in the spec); after the checks, the first cycle's
remaining steps run to completion, then the second's.  When either render
fails the interleaving degenerates to sequential composition. -/
def racedRun (st : Sys) (env1 env2 : CycleEnv) :
    Sys × (Option String × Option String) × (Option String × Option String) :=
  match env1.render, env2.render with
  | .ok s1 z1, .ok s2 z2 =>
    let stA : Sys := { st with files := addFile s2 (addFile s1 st.files) }
    let dup1 := check_if_frame_exists st.db (fingerprintAt env1.now)
    let dup2 := check_if_frame_exists st.db (fingerprintAt env2.now)
    let r1 := match cycleAfterCheck dup1 stA env1 s1 z1 with
      | .ok r => r
      | .error (s, _) => (s, none, none)
    let r2 := match cycleAfterCheck dup2 r1.1 env2 s2 z2 with
      | .ok r => r
      | .error (s, _) => (s, none, none)
    (r2.1, r1.2, r2.2)
  | _, _ =>
    let r1 := generate_image st env1
    let r2 := generate_image r1.1 env2
    (r2.1, r1.2, r2.2)

/-- Whether a disk path is one the startup scan visits: a file of the
image directory whose name ends in .png (os.listdir(IMAGE_DIR) plus the
endswith filter, app.py lines 92-96). -/
def isPngInDir (p : String) : Bool :=
  "images/".data.isPrefixOf p.data && ".png".data.isSuffixOf p.data

/-- ImageManager.cleanup_on_startup (app.py lines 81-115) acting on the
table rows and the list of disk paths: rows whose filepath is not among the
.png files of the image directory are deleted; files of the image directory
that no row references are removed best-effort (ok p = false models a
failing os.remove, which is logged and skipped).  Both set differences are
computed from the same initial snapshot, as in the code. -/
def cleanup_on_startup (db : List ImageRow) (files : List String)
    (ok : String → Bool) : List ImageRow × List String :=
  let db_files := db.map (fun r => r.filepath)
  let actual_files := files.filter isPngInDir
  let db2 := db.filter (fun r => r.filepath ∈ actual_files)
  let files2 := files.filter
    (fun p => ¬ (p ∈ actual_files ∧ p ∉ db_files ∧ ok p = true))
  (db2, files2)

/-- A stored record as a successful cycle at instant ts with rowid i and
caption c would create it (used to build concrete store states). -/
def cycleRowAt (i : Nat) (ts : Timestamp) (c : String) : ImageRow :=
  { id := i, filename := filenameAt ts, filepath := newPathAt ts,
    timestamp := ts, satellite := SATELLITE, sector := "F",
    product := "ABI-L2-MCMIPF", band := "13", url_path := urlAt ts,
    custom_text := c, file_size := 1, data_hash := fingerprintAt ts }

/-- A candidate row that shares c1Stored's dedupFingerprint but neither its
filename nor its url_path. -/
def c1Stored : ImageRow := cycleRowAt 1 ⟨2025, 8, 20, 21, 30⟩ ""

def c1SameHash : ImageRow :=
  { cycleRowAt 2 ⟨2025, 8, 20, 21, 31⟩ "" with data_hash := c1Stored.data_hash }

/-- A candidate row that shares c1Stored's filepath (canonical path) but
neither its filename, url_path nor data_hash. -/
def c1SamePath : ImageRow :=
  { cycleRowAt 3 ⟨2025, 9, 1, 0, 0⟩ "" with filepath := c1Stored.filepath }

/-- An environment for a fully successful cycle at the given instant. -/
def okEnv (ts : Timestamp) : CycleEnv :=
  { render := .ok "/tmp/raw.png" 5, now := ts, custom_text := some "Manual",
    removeRawOk := true, moveOk := true, dbErr := false,
    evictRemoveOk := fun _ => true }

/-- An environment whose renderer raises. -/
def failEnv (ts : Timestamp) : CycleEnv :=
  { okEnv ts with render := .raised }

/-- A store already holding the frame of bucket 2025-08-20 21:30. -/
def stDup : Sys :=
  { db := [c1Stored], nextId := 2, files := [c1Stored.filepath] }

/-- The empty store. -/
def stEmpty : Sys := { db := [], nextId := 1, files := [] }

/-- Number of stored records carrying a given fingerprint,
SELECT COUNT(*) FROM images WHERE data_hash = ?. -/
def countHash (db : List ImageRow) (h : String) : Nat :=
  db.countP (fun r => r.data_hash = h)

/-- The row a successful cycle in environment env from state st inserts,
when the renderer produced a file of size z. -/
def rowFor (st : Sys) (env : CycleEnv) (z : Nat) : ImageRow :=
  { id := st.nextId, filename := filenameAt env.now, filepath := newPathAt env.now,
    timestamp := env.now, satellite := SATELLITE, sector := "F",
    product := "ABI-L2-MCMIPF", band := "13", url_path := urlAt env.now,
    custom_text := env.custom_text.getD "", file_size := z,
    data_hash := fingerprintAt env.now }

/-- A fully successful environment whose renderer wrote to the given path. -/
def okEnvSaved (ts : Timestamp) (saved : String) : CycleEnv :=
  { okEnv ts with render := .ok saved 5 }

/-- The file-deletion oracle under which every os.remove succeeds. -/
def alwaysOk : String → Bool := fun _ => true

/-- The file-deletion oracle under which every os.remove raises. -/
def neverOk : String → Bool := fun _ => false

/-- Row i of a 501-row over-capacity table: distinct ids and strictly
increasing capture timestamps, all sharing one backing path. -/
def mk501 (i : Nat) : ImageRow :=
  { id := i, filename := "f.png", filepath := "images/f.png",
    timestamp := ⟨2025, 1, 1, 0, i⟩, satellite := SATELLITE, sector := "F",
    product := "ABI-L2-MCMIPF", band := "13", url_path := "/api/goes/f",
    custom_text := "", file_size := 1, data_hash := "h" }

def db501 : List ImageRow := (List.range 501).map mk501

/-- An over-capacity store of 501 records whose oldest record's backing file
exists on disk. -/
def st501 : Sys := { db := db501, nextId := 501, files := ["images/f.png"] }

/-- A full store of 500 records (distinct ids, strictly increasing capture
timestamps, the oldest record's backing file present on disk) — the record
count and shape that 500 successful distinct-bucket cycles leave behind. -/
def db500 : List ImageRow := (List.range 500).map mk501

def st500 : Sys :=
  { db := db500, nextId := 500, files := ["images/f.png"] }

/-- A generation environment one year later whose eviction-time os.remove
calls all fail. -/
def envC3 : CycleEnv :=
  { render := .ok "/tmp/raw.png" 5, now := ⟨2026, 1, 1, 0, 0⟩,
    custom_text := some "Auto", removeRawOk := true, moveOk := true,
    dbErr := false, evictRemoveOk := neverOk }

/-- A stale record left by an earlier run: it occupies the url_path and
filename of bucket 2025-08-20 21:30 while carrying a different data_hash,
so the advisory fingerprint check passes but the insert hits the UNIQUE
constraint. -/
def c4Row : ImageRow := { cycleRowAt 1 ⟨2025, 8, 20, 21, 30⟩ "" with data_hash := "stale" }

def stC4 : Sys := { db := [c4Row], nextId := 2, files := [c4Row.filepath] }

/-- A record referencing a missing backing file (dangling). -/
def c8Dangling : ImageRow :=
  { cycleRowAt 4 ⟨2025, 8, 21, 0, 0⟩ "" with filepath := "images/gone.png" }

def c8Db : List ImageRow := [c1Stored, c8Dangling]

/-- A directory holding one referenced file, one orphan and one non-png
file. -/
def c8Files : List String := [c1Stored.filepath, "images/orphan.png", "notes.txt"]

end PettusPlots

namespace PettusPlots

/-- The uniqueness predicate of the schema, spelled as an existence
statement over the stored rows. -/
theorem violatesUnique_iff (db : List ImageRow) (fn up : String) :
    violatesUnique db fn up = true ↔
      ∃ r ∈ db, r.filename = fn ∨ r.url_path = up := by
  unfold violatesUnique
  simp [List.any_eq_true]

/-- If cycleAfterCheck returns normally, the returned pair is either
(None, None) or the (new_path, url_path) success pair. -/
theorem cycleAfterCheck_ok_shape (dup : Bool) (st : Sys) (env : CycleEnv)
    (s : String) (z : Nat) (st2 : Sys) (fp up : Option String)
    (h : cycleAfterCheck dup st env s z = .ok (st2, fp, up)) :
    (fp = none ∧ up = none) ∨
      (fp = some (newPathAt env.now) ∧ up = some (urlAt env.now)) := by
  unfold cycleAfterCheck at h
  by_cases hdup : dup = true
  · rw [if_pos hdup] at h
    by_cases hrm : env.removeRawOk = true
    · rw [if_pos hrm] at h
      simp only [Except.ok.injEq, Prod.mk.injEq] at h
      exact Or.inl ⟨h.2.1.symm, h.2.2.symm⟩
    · rw [if_neg hrm] at h
      exact Except.noConfusion h
  · rw [if_neg hdup] at h
    by_cases hmv : env.moveOk = true
    · rw [if_pos hmv] at h
      dsimp only at h
      split at h
      · simp only [Except.ok.injEq, Prod.mk.injEq] at h
        exact Or.inr ⟨h.2.1.symm, h.2.2.symm⟩
      · exact Except.noConfusion h
      · exact Except.noConfusion h
    · rw [if_neg hmv] at h
      exact Except.noConfusion h

/-- Every run of the cycle returns either (None, None) or a fully-some
pair. -/
theorem generate_image_shape (st : Sys) (env : CycleEnv) :
    (generate_image st env).2 = (none, none) ∨
      ∃ p u, (generate_image st env).2 = (some p, some u) := by
  unfold generate_image generate_real_goes_image
  rcases h : cycleBody st env with ⟨st1, e⟩ | ⟨st2, fp, up⟩
  · simp
  · unfold cycleBody at h
    rcases hr : env.render with _ | _ | ⟨s, z⟩ <;> rw [hr] at h <;> simp only [] at h
    · cases h
    · rcases h with ⟨⟩
      simp
    · rcases cycleAfterCheck_ok_shape _ _ _ _ _ _ _ _ h with ⟨h1, h2⟩ | ⟨h1, h2⟩ <;>
        subst h1 <;> subst h2 <;> simp

/-- C10: for every store state and every behavior of the renderer, the
filesystem and the index, generate_image returns a pair, and that pair is
either the success pair (some path, some url) or (None, None), the latter
covering every failed or duplicate cycle; no exception escapes.  (Totality
is the type of generate_image itself: every modeled exception is caught by
the try/except of generate_real_goes_image.) -/
theorem C10_generate_image_total (st : Sys) (env : CycleEnv) :
    (generate_image st env).2 = (none, none) ∨
      ∃ p u, (generate_image st env).2 = (some p, some u) :=
  generate_image_shape st env

/-- C1 counterexample: the images table schema constrains only filename and
url_path, so an insert whose row shares an existing record's
dedupFingerprint (data_hash) — or an existing record's canonicalPath
(filepath) — succeeds rather than failing with a uniqueness error, refuting
the claimed iff at this concrete input. -/
theorem C1_counterexample :
    c1SameHash.data_hash = c1Stored.data_hash ∧
    insertImage [c1Stored] c1SameHash false = .ok [c1Stored, c1SameHash] ∧
    c1SamePath.filepath = c1Stored.filepath ∧
    insertImage [c1Stored] c1SamePath false = .ok [c1Stored, c1SamePath] :=
  ⟨rfl, rfl, rfl, rfl⟩

/-- C1 amended: MetadataIndex.insert fails with the uniqueness-constraint
(IntegrityError) outcome if and only if some already-stored record shares
the candidate's filename or url_path — those are the only UNIQUE columns of
the images table; filepath (canonicalPath) and data_hash (dedupFingerprint)
carry no storage-level constraint. -/
theorem C1_insert_unique_iff (db : List ImageRow) (row : ImageRow) (opFail : Bool) :
    insertImage db row opFail = .error .integrity ↔
      ∃ r ∈ db, r.filename = row.filename ∨ r.url_path = row.url_path := by
  rw [← violatesUnique_iff db row.filename row.url_path]
  unfold insertImage
  by_cases h : violatesUnique db row.filename row.url_path = true
  · rw [if_pos h]
    simp [h]
  · rw [if_neg h]
    constructor
    · intro hc
      by_cases hop : opFail = true
      · rw [if_pos hop] at hc
        exact absurd hc (by simp)
      · rw [if_neg hop] at hc
        exact absurd hc (by simp)
    · intro hc
      exact absurd hc h

/-- C5 counterexample: a duplicate-frame no-op and a renderer failure are
reported to the manual-trigger requester as the very same response (the
combined 200 error body), and generate_real_goes_image returns the same
(None, None) for both, so the caller cannot distinguish Duplicate from
Failed. -/
theorem C5_counterexample :
    check_if_frame_exists stDup.db (fingerprintAt (okEnv ⟨2025, 8, 20, 21, 31⟩).now) = true ∧
    (failEnv ⟨2025, 8, 20, 21, 31⟩).render = .raised ∧
    (generate_new_image stDup (okEnv ⟨2025, 8, 20, 21, 31⟩)).2 = .duplicateOrFailed ∧
    (generate_new_image stEmpty (failEnv ⟨2025, 8, 20, 21, 31⟩)).2 = .duplicateOrFailed ∧
    (generate_image stDup (okEnv ⟨2025, 8, 20, 21, 31⟩)).2
      = (generate_image stEmpty (failEnv ⟨2025, 8, 20, 21, 31⟩)).2 := by
  decide

/-- C5 amended: the manual-trigger caller can distinguish Created from the
other outcomes — the endpoint answers with the created URL exactly when the
cycle returns a truthy pair — but Duplicate and Failed are mapped to one
and the same response, so only two of the three claimed outcomes are
distinguishable. -/
theorem C5_created_distinguishable (st : Sys) (env : CycleEnv) :
    (∃ u, (generate_new_image st env).2 = .created u) ↔
      ∃ fp u, (generate_image st env).2 = (some fp, some u) := by
  unfold generate_new_image
  rcases h : (generate_image st env).2 with ⟨fp, up⟩
  rcases fp <;> rcases up <;> simp [h]

theorem tsLe_refl (a : Timestamp) : tsLe a a := by
  unfold tsLe; omega

theorem tsLe_total (a b : Timestamp) : tsLe a b ∨ tsLe b a := by
  unfold tsLe; omega

theorem tsLe_trans_ts {a b c : Timestamp} (h1 : tsLe a b) (h2 : tsLe b c) : tsLe a c := by
  unfold tsLe at h1 h2 ⊢; omega

theorem tsLe_antisymm_ts {a b : Timestamp} (h1 : tsLe a b) (h2 : tsLe b a) : a = b := by
  obtain ⟨y1, o1, d1, g1, m1⟩ := a
  obtain ⟨y2, o2, d2, g2, m2⟩ := b
  unfold tsLe at h1 h2
  dsimp only at h1 h2
  simp only [Timestamp.mk.injEq]
  omega

instance : IsTotal ImageRow rowTsLe :=
  ⟨fun a b => tsLe_total a.timestamp b.timestamp⟩

instance : IsTrans ImageRow rowTsLe :=
  ⟨fun _ _ _ h1 h2 => tsLe_trans_ts h1 h2⟩

/-- The lex eviction order refines the timestamp order. -/
theorem rowLexLt_le {a b : ImageRow} (h : rowLexLt a b) : rowTsLe a b := by
  rcases h with ⟨h1, _⟩ | ⟨h1, _⟩
  · exact h1
  · show tsLe a.timestamp b.timestamp
    rw [h1]; exact tsLe_refl _

/-- Inserting a row whose id is below every id of a lex-sorted list keeps
the list lex-sorted: the timestamp comparison of the SQL sort, together
with the stability of the scan order, realizes the (timestamp, id) order. -/
theorem orderedInsert_pairwise_lex (x : ImageRow) :
    ∀ l : List ImageRow, l.Pairwise rowLexLt → (∀ y ∈ l, x.id < y.id) →
      (l.orderedInsert rowTsLe x).Pairwise rowLexLt
  | [], _, _ => by simp [List.orderedInsert]
  | y :: ys, hl, hid => by
    simp only [List.orderedInsert]
    by_cases hxy : rowTsLe x y
    · rw [if_pos hxy]
      refine List.Pairwise.cons ?_ hl
      intro z hz
      have hxz : rowTsLe x z := by
        rcases List.mem_cons.mp hz with rfl | hz2
        · exact hxy
        · exact tsLe_trans_ts hxy (rowLexLt_le ((List.pairwise_cons.mp hl).1 z hz2))
      by_cases hzx : rowTsLe z x
      · exact Or.inr ⟨tsLe_antisymm_ts hxz hzx, hid z hz⟩
      · exact Or.inl ⟨hxz, hzx⟩
    · rw [if_neg hxy]
      obtain ⟨hy, hys⟩ := List.pairwise_cons.mp hl
      refine List.Pairwise.cons ?_
        (orderedInsert_pairwise_lex x ys hys
          (fun q hq => hid q (List.mem_cons_of_mem y hq)))
      intro z hz
      rcases (List.mem_orderedInsert rowTsLe).mp hz with rfl | hz2
      · exact Or.inl ⟨(tsLe_total y.timestamp z.timestamp).resolve_right hxy, hxy⟩
      · exact hy z hz2

/-- On a table whose rowids increase in scan order, the ORDER BY timestamp
sort is sorted in the lex (timestamp, id) order. -/
theorem orderByTsAsc_pairwise_lex :
    ∀ db : List ImageRow, db.Pairwise (fun a b => a.id < b.id) →
      (orderByTsAsc db).Pairwise rowLexLt
  | [], _ => by simp [orderByTsAsc, List.insertionSort]
  | x :: xs, h => by
    obtain ⟨hx, hxs⟩ := List.pairwise_cons.mp h
    simp only [orderByTsAsc, List.insertionSort]
    exact orderedInsert_pairwise_lex x _ (orderByTsAsc_pairwise_lex xs hxs)
      (fun y hy => hx y ((List.mem_insertionSort rowTsLe).mp hy))

theorem deleteById_sublist (db : List ImageRow) (i : Nat) :
    List.Sublist (deleteById db i) db := by
  unfold deleteById; exact List.filter_sublist db

theorem mem_deleteById {db : List ImageRow} {i : Nat} {q : ImageRow} :
    q ∈ deleteById db i ↔ q ∈ db ∧ q.id ≠ i := by
  unfold deleteById
  simp [List.mem_filter]

theorem deleteById_length : ∀ (db : List ImageRow) (i : Nat),
    db.countP (fun q => q.id = i) = 1 → (deleteById db i).length = db.length - 1
  | [], i, h => by simp [List.countP_nil] at h
  | a :: l, i, h => by
    rw [List.countP_cons] at h
    by_cases ha : a.id = i
    · simp [ha] at h
      have h0 : l.countP (fun q => decide (q.id = i)) = 0 :=
        List.countP_eq_zero.mpr (by intro a ha; simpa using h a ha)
      have hdrop : deleteById (a :: l) i = deleteById l i := by
        unfold deleteById
        simp [List.filter_cons, ha]
      have hkeep : deleteById l i = l := by
        unfold deleteById
        rw [List.filter_eq_self]
        intro q hq
        have hne := List.countP_eq_zero.mp h0 q hq
        simp only [decide_eq_true_eq] at hne ⊢
        exact hne
      rw [hdrop, hkeep]
      simp
    · simp [ha] at h
      have h1 : l.countP (fun q => decide (q.id = i)) = 1 := h
      have hcons : deleteById (a :: l) i = a :: deleteById l i := by
        unfold deleteById
        simp [List.filter_cons, ha]
      rw [hcons]
      simp only [List.length_cons]
      rw [deleteById_length l i h1]
      have hge : 1 ≤ l.length := by
        have hle := List.countP_le_length (p := fun q : ImageRow => decide (q.id = i)) (l := l)
        omega
      omega

/-- The eviction loop's surviving rows form a sublist of the table. -/
theorem evictLoop_db_sublist (ok : String → Bool) :
    ∀ (old db : List ImageRow) (files : List String),
      List.Sublist (evictLoop ok old db files).1 db
  | [], _, _ => List.Sublist.refl _
  | r :: rest, db, files => by
    simp only [evictLoop]
    by_cases hf : r.filepath ∈ files
    · rw [if_pos hf]
      by_cases hok : ok r.filepath = true
      · rw [if_pos hok]
        exact (evictLoop_db_sublist ok rest _ _).trans (deleteById_sublist db r.id)
      · rw [if_neg hok]
        exact evictLoop_db_sublist ok rest db files
    · rw [if_neg hf]
      exact (evictLoop_db_sublist ok rest _ _).trans (deleteById_sublist db r.id)

/-- When every file deletion succeeds, a row survives the eviction loop iff
its id differs from every selected row's id: the loop is then
metadata-exhaustive. -/
theorem evictLoop_allOk_mem (ok : String → Bool) :
    ∀ (old db : List ImageRow) (files : List String),
      (∀ r ∈ old, ok r.filepath = true) → ∀ q : ImageRow,
      (q ∈ (evictLoop ok old db files).1 ↔ q ∈ db ∧ ∀ r ∈ old, q.id ≠ r.id)
  | [], db, files, _, q => by simp [evictLoop]
  | r :: rest, db, files, hok, q => by
    have hr : ok r.filepath = true := hok r (List.mem_cons_self r rest)
    have hrest : ∀ a ∈ rest, ok a.filepath = true :=
      fun a ha => hok a (List.mem_cons_of_mem r ha)
    simp only [evictLoop, hr, if_true]
    have hmain : q ∈ (evictLoop ok rest (deleteById db r.id) (files.erase r.filepath)).1
        ↔ q ∈ db ∧ ∀ a ∈ r :: rest, q.id ≠ a.id := by
      rw [evictLoop_allOk_mem ok rest _ _ hrest q]
      rw [mem_deleteById]
      simp only [List.forall_mem_cons]
      tauto
    by_cases hf : r.filepath ∈ files
    · rw [if_pos hf]; exact hmain
    · rw [if_neg hf]
      rw [evictLoop_allOk_mem ok rest _ _ hrest q]
      rw [mem_deleteById]
      simp only [List.forall_mem_cons]
      tauto

/-- When every file deletion succeeds and the selected rows have pairwise
distinct ids each occurring exactly once in the table, the loop removes
exactly one row per selected row. -/
theorem evictLoop_allOk_length (ok : String → Bool) :
    ∀ (old db : List ImageRow) (files : List String),
      (∀ r ∈ old, ok r.filepath = true) →
      (∀ r ∈ old, db.countP (fun q => q.id = r.id) = 1) →
      old.Pairwise (fun a b => a.id ≠ b.id) →
      (evictLoop ok old db files).1.length = db.length - old.length
  | [], db, files, _, _, _ => rfl
  | r :: rest, db, files, hok, hone, hdist => by
    have hr : ok r.filepath = true := hok r (List.mem_cons_self r rest)
    have hrest : ∀ a ∈ rest, ok a.filepath = true :=
      fun a ha => hok a (List.mem_cons_of_mem r ha)
    obtain ⟨hd1, hd2⟩ := List.pairwise_cons.mp hdist
    have hcount : db.countP (fun q => q.id = r.id) = 1 :=
      hone r (List.mem_cons_self r rest)
    have hlen : (deleteById db r.id).length = db.length - 1 :=
      deleteById_length db r.id hcount
    have honerest : ∀ a ∈ rest, (deleteById db r.id).countP (fun q => q.id = a.id) = 1 := by
      intro a ha
      have hane : a.id ≠ r.id := Ne.symm (hd1 a ha)
      have : (deleteById db r.id).countP (fun q => q.id = a.id)
          = db.countP (fun q => q.id = a.id) := by
        unfold deleteById
        rw [List.countP_filter]
        apply List.countP_congr
        intro q _
        constructor
        · intro hq
          simp only [Bool.and_eq_true, decide_eq_true_eq] at hq ⊢
          exact hq.1
        · intro hq
          simp only [decide_eq_true_eq] at hq
          simp only [Bool.and_eq_true, decide_eq_true_eq]
          exact ⟨hq, hq ▸ hane⟩
      rw [this]; exact hone a (List.mem_cons_of_mem r ha)
    have hpos : 1 ≤ db.length := by
      have := hcount
      by_contra hcon
      push_neg at hcon
      interval_cases hdb : db.length
      · rw [List.length_eq_zero] at hdb
        subst hdb
        simp [List.countP_nil] at this
    have step : ∀ files2, (evictLoop ok rest (deleteById db r.id) files2).1.length
        = db.length - 1 - rest.length := by
      intro files2
      rw [evictLoop_allOk_length ok rest _ files2 hrest honerest hd2, hlen]
    simp only [evictLoop, hr, if_true]
    by_cases hf : r.filepath ∈ files
    · rw [if_pos hf, step]
      simp only [List.length_cons]
      omega
    · rw [if_neg hf, step]
      simp only [List.length_cons]
      omega

/-- C9: the canonical URL path function is a pure Lean function (hence
deterministic), and on timestamp 2025-08-20T21:30:00Z with satellite
GOES-19, sector F, product ABI-L2-MCMIPF and band 13 it produces the
namespaced path with namespace /api/goes in app.py and /goes in server.py,
its body being GOES19_FullDisk_Band13_CleanIR_Multichannel_20250820_2130Z
in both. -/
theorem C9_url_determinism :
    generate_descriptive_url ⟨2025, 8, 20, 21, 30⟩ "GOES-19" "F" "ABI-L2-MCMIPF" "13"
      = "/api/goes/GOES19_FullDisk_Band13_CleanIR_Multichannel_20250820_2130Z" ∧
    generate_descriptive_url_server ⟨2025, 8, 20, 21, 30⟩ "GOES-19" "F" "ABI-L2-MCMIPF" "13"
      = "/goes/GOES19_FullDisk_Band13_CleanIR_Multichannel_20250820_2130Z" := by
  constructor <;> rfl

theorem countP_id_eq_count_map (db : List ImageRow) (n : Nat) :
    db.countP (fun q => q.id = n) = (db.map (fun q => q.id)).count n := by
  induction db with
  | nil => rfl
  | cons a l ih =>
    rw [List.map_cons, List.countP_cons, List.count_cons, ih]
    by_cases h : a.id = n
    · simp [h]
    · simp [h]

/-- On a table with strictly increasing rowids, each rowid selects exactly
one row. -/
theorem countP_id_of_pairwise (db : List ImageRow)
    (hp : db.Pairwise (fun a b => a.id < b.id)) (r : ImageRow) (hr : r ∈ db) :
    db.countP (fun q => q.id = r.id) = 1 := by
  rw [countP_id_eq_count_map]
  have hnodup : (db.map (fun q => q.id)).Nodup :=
    List.Pairwise.map _ (fun a b h => Nat.ne_of_lt h) hp
  exact List.count_eq_one_of_mem hnodup (List.mem_map.mpr ⟨r, hr, rfl⟩)

theorem orderByTsAsc_perm (db : List ImageRow) : List.Perm (orderByTsAsc db) db :=
  List.perm_insertionSort rowTsLe db

/-- A below-capacity table is left untouched by the capacity pass. -/
theorem cleanup_old_images_noop (st : Sys) (ok : String → Bool)
    (h : st.db.length ≤ MAX_IMAGES) : cleanup_old_images st ok = st := by
  unfold cleanup_old_images
  rw [if_neg (by omega)]

/-- When every file deletion succeeds, the over-capacity pass trims the
table to exactly MAX_IMAGES rows. -/
theorem cleanup_over_capacity_length (st : Sys) (ok : String → Bool)
    (hids : st.db.Pairwise (fun a b => a.id < b.id))
    (hok : ∀ p, ok p = true)
    (hover : st.db.length > MAX_IMAGES) :
    (cleanup_old_images st ok).db.length = MAX_IMAGES := by
  have hperm := orderByTsAsc_perm st.db
  have hlen_sorted : (orderByTsAsc st.db).length = st.db.length := hperm.length_eq
  set excess := st.db.length - MAX_IMAGES with hexcess
  set old := (orderByTsAsc st.db).take excess with hold
  have hok2 : ∀ r ∈ old, ok r.filepath = true := fun r _ => hok r.filepath
  have hsub_old : ∀ r ∈ old, r ∈ st.db := fun r hr =>
    hperm.mem_iff.mp (List.mem_of_mem_take hr)
  have hone : ∀ r ∈ old, st.db.countP (fun q => q.id = r.id) = 1 :=
    fun r hr => countP_id_of_pairwise st.db hids r (hsub_old r hr)
  have hNe : st.db.Pairwise (fun a b => a.id ≠ b.id) :=
    hids.imp (fun h => Nat.ne_of_lt h)
  have hsortedNe : (orderByTsAsc st.db).Pairwise (fun a b => a.id ≠ b.id) :=
    (hperm.pairwise_iff (fun h => Ne.symm h)).mpr hNe
  have holdNe : old.Pairwise (fun a b => a.id ≠ b.id) :=
    hsortedNe.sublist (List.take_sublist excess _)
  have hlen_old : old.length = excess := by
    rw [hold, List.length_take, hlen_sorted]
    omega
  have hres : cleanup_old_images st ok
      = { st with db := (evictLoop ok old st.db st.files).1,
                  files := (evictLoop ok old st.db st.files).2 } := by
    unfold cleanup_old_images
    rw [if_pos hover]
  rw [hres]
  dsimp only
  rw [evictLoop_allOk_length ok old st.db st.files hok2 hone holdNe, hlen_old]
  omega

/-- C7 amended: whenever the table exceeds MAX_IMAGES, the eviction pass
removes exactly excess = count - MAX_IMAGES records — provided every
per-record os.remove succeeds, since a file-deletion failure skips that
record's DELETE — and, with ORDER BY ties modeled as the stable scan order,
every removed record precedes every surviving record in the
(captureTimestamp, id) order: smallest timestamp first, ties by smallest
id. -/
theorem C7_eviction_ordering (st : Sys) (ok : String → Bool)
    (hids : st.db.Pairwise (fun a b => a.id < b.id))
    (hok : ∀ p, ok p = true)
    (hover : st.db.length > MAX_IMAGES) :
    (cleanup_old_images st ok).db.length = MAX_IMAGES ∧
    (∀ q ∈ (cleanup_old_images st ok).db, q ∈ st.db) ∧
    (∀ x ∈ st.db, x ∉ (cleanup_old_images st ok).db →
      ∀ q ∈ (cleanup_old_images st ok).db, rowLexLt x q) := by
  have hperm := orderByTsAsc_perm st.db
  have hlen_sorted : (orderByTsAsc st.db).length = st.db.length := hperm.length_eq
  set excess := st.db.length - MAX_IMAGES with hexcess
  set old := (orderByTsAsc st.db).take excess with hold
  have hok2 : ∀ r ∈ old, ok r.filepath = true := fun r _ => hok r.filepath
  have hsub_old : ∀ r ∈ old, r ∈ st.db := fun r hr =>
    hperm.mem_iff.mp (List.mem_of_mem_take hr)
  have hone : ∀ r ∈ old, st.db.countP (fun q => q.id = r.id) = 1 :=
    fun r hr => countP_id_of_pairwise st.db hids r (hsub_old r hr)
  have hNe : st.db.Pairwise (fun a b => a.id ≠ b.id) :=
    hids.imp (fun h => Nat.ne_of_lt h)
  have hsortedNe : (orderByTsAsc st.db).Pairwise (fun a b => a.id ≠ b.id) :=
    (hperm.pairwise_iff (fun h => Ne.symm h)).mpr hNe
  have holdNe : old.Pairwise (fun a b => a.id ≠ b.id) :=
    hsortedNe.sublist (List.take_sublist excess _)
  have hlen_old : old.length = excess := by
    rw [hold, List.length_take, hlen_sorted]
    omega
  have hres : cleanup_old_images st ok
      = { st with db := (evictLoop ok old st.db st.files).1,
                  files := (evictLoop ok old st.db st.files).2 } := by
    unfold cleanup_old_images
    rw [if_pos hover]
  have hlex : (orderByTsAsc st.db).Pairwise rowLexLt :=
    orderByTsAsc_pairwise_lex st.db hids
  have hmem := evictLoop_allOk_mem ok old st.db st.files hok2
  refine ⟨?_, ?_, ?_⟩
  · exact cleanup_over_capacity_length st ok hids hok hover
  · intro q hq
    rw [hres] at hq
    dsimp only at hq
    exact (evictLoop_db_sublist ok old st.db st.files).subset hq
  · intro x hx hxout q hq
    rw [hres] at hxout hq
    dsimp only at hxout hq
    have hxold : x ∈ old := by
      by_contra hcon
      apply hxout
      rw [hmem x]
      refine ⟨hx, ?_⟩
      intro r hr he
      -- if x.id = r.id with r ∈ old ⊆ db, then x = r ∈ old, contradiction
      have hnodup : (st.db.map (fun q => q.id)).Nodup :=
        List.Pairwise.map _ (fun a b h => h) hNe
      have hxr : x = r := by
        have := List.inj_on_of_nodup_map hnodup hx (hsub_old r hr)
        exact this he
      exact absurd (hxr ▸ hr) hcon
    have hqdrop : q ∈ (orderByTsAsc st.db).drop excess := by
      have hq_char := (hmem q).mp hq
      have hq_sorted : q ∈ (orderByTsAsc st.db) := hperm.mem_iff.mpr hq_char.1
      rcases (List.mem_append.mp
        (by rw [List.take_append_drop excess (orderByTsAsc st.db)]; exact hq_sorted)) with h1 | h1
      · exact absurd rfl (hq_char.2 q h1)
      · exact h1
    exact List.Sorted.rel_of_mem_take_of_mem_drop hlex hxold hqdrop

theorem pairwise501 : db501.Pairwise (fun a b => a.id < b.id) := by
  unfold db501
  exact List.Pairwise.map mk501 (fun a b h => h) (List.pairwise_lt_range 501)

theorem db501_length : db501.length = 501 := by
  unfold db501
  rw [List.length_map, List.length_range]

/-- C7 witness: the 501-record over-capacity store with all file deletions
succeeding is trimmed to exactly MAX_IMAGES records. -/
theorem C7_witness :
    st501.db.length > MAX_IMAGES ∧
    (cleanup_old_images st501 alwaysOk).db.length = MAX_IMAGES :=
  ⟨by rw [show st501.db = db501 from rfl, db501_length]; decide,
   (C7_eviction_ordering st501 alwaysOk pairwise501 (fun p => rfl)
     (by rw [show st501.db = db501 from rfl, db501_length]; decide)).1⟩

/-- C7 counterexample: in the same over-capacity store, when the selected
record's os.remove fails the loop removes zero records instead of the
claimed excess = 1: the DELETE sits inside the same try block as the file
deletion, so the record survives. -/
theorem C7_counterexample :
    st501.db.length - MAX_IMAGES = 1 ∧
    neverOk (mk501 0).filepath = false ∧
    (cleanup_old_images st501 neverOk).db.length = 501 := by
  refine ⟨?_, rfl, ?_⟩
  · rw [show st501.db = db501 from rfl, db501_length]
    decide
  · rfl

/-- A record whose backing file exists but cannot be deleted survives the
eviction loop: its DELETE is skipped and, its os.remove failing
deterministically, no other iteration can erase its path either. -/
theorem evictLoop_mem_of_failed (ok : String → Bool) :
    ∀ (old db : List ImageRow) (files : List String) (r : ImageRow),
      r ∈ db → ok r.filepath = false → r.filepath ∈ files →
      (∀ q ∈ old, q.id = r.id → q.filepath = r.filepath) →
      r ∈ (evictLoop ok old db files).1
  | [], _, _, r, hr, _, _, _ => hr
  | q :: rest, db, files, r, hr, hfail, hfile, hid => by
    simp only [evictLoop]
    by_cases hf : q.filepath ∈ files
    · rw [if_pos hf]
      by_cases hq : ok q.filepath = true
      · rw [if_pos hq]
        have hne_id : q.id ≠ r.id := by
          intro he
          have hp := hid q (List.mem_cons_self q rest) he
          rw [hp, hfail] at hq
          exact absurd hq (by decide)
        have hne_path : q.filepath ≠ r.filepath := by
          intro he
          rw [he, hfail] at hq
          exact absurd hq (by decide)
        refine evictLoop_mem_of_failed ok rest _ _ r ?_ hfail ?_ ?_
        · exact mem_deleteById.mpr ⟨hr, fun he => hne_id he.symm⟩
        · exact (List.mem_erase_of_ne (fun he => hne_path he.symm)).mpr hfile
        · exact fun a ha he => hid a (List.mem_cons_of_mem q ha) he
      · rw [if_neg hq]
        exact evictLoop_mem_of_failed ok rest db files r hr hfail hfile
          (fun a ha he => hid a (List.mem_cons_of_mem q ha) he)
    · rw [if_neg hf]
      have hne_id : q.id ≠ r.id := by
        intro he
        have hp := hid q (List.mem_cons_self q rest) he
        rw [hp] at hf
        exact hf hfile
      exact evictLoop_mem_of_failed ok rest _ files r
        (mem_deleteById.mpr ⟨hr, fun he => hne_id he.symm⟩) hfail hfile
        (fun a ha he => hid a (List.mem_cons_of_mem q ha) he)

/-- C6 amended: eviction is not metadata-authoritative.  When deletion of a
record's backing file raises, the record's DELETE — inside the same try
block — is skipped; the failure is logged and the loop continues, so the
record remains in the metadata index.  A selected record is removed only
when its file is already absent or its deletion succeeds. -/
theorem C6_record_survives_failed_file_deletion (st : Sys) (ok : String → Bool)
    (r : ImageRow)
    (hids : st.db.Pairwise (fun a b => a.id < b.id))
    (hr : r ∈ st.db)
    (hfile : r.filepath ∈ st.files)
    (hfail : ok r.filepath = false) :
    r ∈ (cleanup_old_images st ok).db := by
  unfold cleanup_old_images
  by_cases hover : st.db.length > MAX_IMAGES
  · rw [if_pos hover]
    dsimp only
    apply evictLoop_mem_of_failed ok _ st.db st.files r hr hfail hfile
    intro q hq he
    have hq_db : q ∈ st.db := by
      have hq2 : q ∈ orderByTsAsc st.db := List.mem_of_mem_take hq
      exact (orderByTsAsc_perm st.db).mem_iff.mp hq2
    have hNe : st.db.Pairwise (fun a b => a.id ≠ b.id) :=
      hids.imp (fun h => Nat.ne_of_lt h)
    have hnodup : (st.db.map (fun q => q.id)).Nodup :=
      List.Pairwise.map _ (fun a b h => h) hNe
    have hqr : q = r := List.inj_on_of_nodup_map hnodup hq_db hr he
    rw [hqr]
  · rw [if_neg hover]
    exact hr

/-- C6 counterexample: the oldest record of the 501-record store is selected
for eviction, its backing file exists, its deletion fails — and contrary to
the claim the record is NOT removed from the metadata index. -/
theorem C6_counterexample :
    mk501 0 ∈ (orderByTsAsc st501.db).take (st501.db.length - MAX_IMAGES) ∧
    (mk501 0).filepath ∈ st501.files ∧
    neverOk (mk501 0).filepath = false ∧
    mk501 0 ∈ (cleanup_old_images st501 neverOk).db := by
  refine ⟨?_, ?_, rfl, ?_⟩
  · decide
  · decide
  · decide

/-- C6 witness: the amended survival statement applied to the concrete
over-capacity store. -/
theorem C6_witness :
    mk501 0 ∈ st501.db ∧ neverOk (mk501 0).filepath = false ∧
    mk501 0 ∈ (cleanup_old_images st501 neverOk).db :=
  ⟨by decide, rfl,
   C6_record_survives_failed_file_deletion st501 neverOk (mk501 0) pairwise501
     (by decide) (by decide) rfl⟩

theorem mem_addFile (p : String) (fs : List String) : p ∈ addFile p fs := by
  unfold addFile
  by_cases h : p ∈ fs
  · rw [if_pos h]; exact h
  · rw [if_neg h]; exact List.mem_cons_self p fs

theorem insertImage_ok {db : List ImageRow} {row : ImageRow} {f : Bool}
    {db2 : List ImageRow} (h : insertImage db row f = .ok db2) :
    db2 = db ++ [row] := by
  unfold insertImage at h
  by_cases hv : violatesUnique db row.filename row.url_path = true
  · rw [if_pos hv] at h; exact Except.noConfusion h
  · rw [if_neg hv] at h
    by_cases hf : f = true
    · rw [if_pos hf] at h; exact Except.noConfusion h
    · rw [if_neg hf] at h
      exact (Except.ok.injEq _ _).mp h.symm

/-- Any exception raised inside the cycle's body after the render leaves the
database untouched: no path of cycleAfterCheck modifies the table before a
successful insert. -/
theorem cycleAfterCheck_error_db {dup : Bool} {st : Sys} {env : CycleEnv}
    {s : String} {z : Nat} {st2 : Sys} {e : PyErr}
    (h : cycleAfterCheck dup st env s z = .error (st2, e)) : st2.db = st.db := by
  unfold cycleAfterCheck at h
  by_cases hdup : dup = true
  · rw [if_pos hdup] at h
    by_cases hrm : env.removeRawOk = true
    · rw [if_pos hrm] at h; exact Except.noConfusion h
    · rw [if_neg hrm] at h
      simp only [Except.error.injEq, Prod.mk.injEq] at h
      rw [← h.1]
  · rw [if_neg hdup] at h
    by_cases hmv : env.moveOk = true
    · rw [if_pos hmv] at h
      dsimp only at h
      split at h
      · exact Except.noConfusion h
      · simp only [Except.error.injEq, Prod.mk.injEq] at h
        rw [← h.1]
      · simp only [Except.error.injEq, Prod.mk.injEq] at h
        rw [← h.1]
    · rw [if_neg hmv] at h
      simp only [Except.error.injEq, Prod.mk.injEq] at h
      rw [← h.1]

/-- A (None, None) normal return of cycleAfterCheck leaves the database
untouched. -/
theorem cycleAfterCheck_none_db {dup : Bool} {st : Sys} {env : CycleEnv}
    {s : String} {z : Nat} {st2 : Sys}
    (h : cycleAfterCheck dup st env s z = .ok (st2, none, none)) : st2.db = st.db := by
  unfold cycleAfterCheck at h
  by_cases hdup : dup = true
  · rw [if_pos hdup] at h
    by_cases hrm : env.removeRawOk = true
    · rw [if_pos hrm] at h
      simp only [Except.ok.injEq, Prod.mk.injEq] at h
      rw [← h.1]
    · rw [if_neg hrm] at h; exact Except.noConfusion h
  · rw [if_neg hdup] at h
    by_cases hmv : env.moveOk = true
    · rw [if_pos hmv] at h
      dsimp only at h
      split at h
      · simp only [Except.ok.injEq, Prod.mk.injEq] at h
        exact absurd h.2.1 (by simp)
      · exact Except.noConfusion h
      · exact Except.noConfusion h
    · rw [if_neg hmv] at h; exact Except.noConfusion h

/-- A cycle that reports (None, None) — renderer failure, storage failure,
duplicate frame, or index rejection — creates no record. -/
theorem generate_image_db_of_none (st : Sys) (env : CycleEnv)
    (h : (generate_image st env).2 = (none, none)) :
    ((generate_image st env).1).db = st.db := by
  unfold generate_image generate_real_goes_image at h ⊢
  rcases hb : cycleBody st env with ⟨st1, e⟩ | ⟨st2, fp, up⟩
  · dsimp only
    unfold cycleBody at hb
    rcases hr : env.render with _ | _ | ⟨s, z⟩ <;> rw [hr] at hb <;> dsimp only at hb
    · simp only [Except.error.injEq, Prod.mk.injEq] at hb
      rw [← hb.1]
    · exact Except.noConfusion hb
    · have h2 := cycleAfterCheck_error_db hb
      exact h2
  · rw [hb] at h
    dsimp only at h ⊢
    have hpair : fp = none ∧ up = none := by simpa using h
    obtain ⟨hfp, hup⟩ := hpair
    subst hfp
    subst hup
    unfold cycleBody at hb
    rcases hr : env.render with _ | _ | ⟨s, z⟩ <;> rw [hr] at hb <;> dsimp only at hb
    · exact Except.noConfusion hb
    · simp only [Except.ok.injEq, Prod.mk.injEq] at hb
      rw [← hb.1]
    · have h2 := cycleAfterCheck_none_db hb
      exact h2

/-- Inversion of a created cycle: the advisory check was negative and the
resulting table is the eviction pass applied to the old table plus exactly
the row rowFor describes. -/
theorem generate_image_created_char (st : Sys) (env : CycleEnv) (p u : String)
    (h : (generate_image st env).2 = (some p, some u)) :
    check_if_frame_exists st.db (fingerprintAt env.now) = false ∧
    ∃ z fs, ((generate_image st env).1).db
      = (cleanup_old_images
          { db := st.db ++ [rowFor st env z], nextId := st.nextId + 1, files := fs }
          env.evictRemoveOk).db := by
  unfold generate_image generate_real_goes_image at h ⊢
  rcases hb : cycleBody st env with ⟨st1, e⟩ | ⟨st2, fp, up⟩
  · rw [hb] at h
    simp at h
  · rw [hb] at h
    dsimp only at h ⊢
    unfold cycleBody at hb
    rcases hr : env.render with _ | _ | ⟨s, z⟩ <;> rw [hr] at hb <;> dsimp only at hb
    · exact Except.noConfusion hb
    · simp only [Except.ok.injEq, Prod.mk.injEq] at hb
      rcases hb with ⟨-, hb2, -⟩
      rw [← hb2] at h
      simp at h
    · unfold cycleAfterCheck at hb
      by_cases hdup : check_if_frame_exists st.db (fingerprintAt env.now) = true
      · rw [if_pos hdup] at hb
        by_cases hrm : env.removeRawOk = true
        · rw [if_pos hrm] at hb
          simp only [Except.ok.injEq, Prod.mk.injEq] at hb
          rcases hb with ⟨-, hb2, -⟩
          rw [← hb2] at h
          simp at h
        · rw [if_neg hrm] at hb
          exact Except.noConfusion hb
      · refine ⟨by simpa using hdup, ?_⟩
        rw [if_neg hdup] at hb
        by_cases hmv : env.moveOk = true
        · rw [if_pos hmv] at hb
          dsimp only at hb
          split at hb
          · next db2 heq =>
              simp only [Except.ok.injEq, Prod.mk.injEq] at hb
              obtain ⟨hb1, -, -⟩ := hb
              have hdb2 := insertImage_ok heq
              refine ⟨z, addFile (newPathAt env.now) ((addFile s st.files).erase s), ?_⟩
              rw [← hb1]
              rw [hdb2]
              rfl
          · next heq => exact Except.noConfusion hb
          · next heq => exact Except.noConfusion hb
        · rw [if_neg hmv] at hb
          exact Except.noConfusion hb

/-- A created cycle from a below-capacity store appends exactly one row and
evicts nothing. -/
theorem generate_image_created_small (st : Sys) (env : CycleEnv) (p u : String)
    (h : (generate_image st env).2 = (some p, some u))
    (hcap : st.db.length < MAX_IMAGES) :
    ∃ z, ((generate_image st env).1).db = st.db ++ [rowFor st env z] := by
  obtain ⟨-, z, fs, hdb⟩ := generate_image_created_char st env p u h
  refine ⟨z, ?_⟩
  rw [hdb, cleanup_old_images_noop]
  dsimp only
  rw [List.length_append]
  simp only [List.length_cons, List.length_nil]
  omega

/-- C2 amended: two generation cycles whose capture instants share one
3-minute fingerprint bucket, run sequentially (without overlap), yield
exactly one record for that fingerprint — the first cycle creates it and
the second is rejected by the advisory check.  The claim's further promise
for overlapping cycles is refuted by the counterexample: nothing enforces
the fingerprint at the storage layer, so two interleaved cycles insert two
records of one bucket. -/
theorem C2_dedup_sequential (st : Sys) (e1 e2 : CycleEnv)
    (hb : fingerprintAt e1.now = fingerprintAt e2.now)
    (h0 : countHash st.db (fingerprintAt e1.now) = 0)
    (hcap : st.db.length < MAX_IMAGES)
    (hc : (generate_image st e1).2 ≠ (none, none)) :
    countHash ((generate_image (generate_image st e1).1 e2).1).db
      (fingerprintAt e1.now) = 1 := by
  rcases generate_image_shape st e1 with hnone | ⟨p, u, hcr⟩
  · exact absurd hnone hc
  obtain ⟨z, hdb1⟩ := generate_image_created_small st e1 p u hcr hcap
  have hcount1 : countHash ((generate_image st e1).1).db (fingerprintAt e1.now) = 1 := by
    rw [hdb1]
    unfold countHash at h0 ⊢
    rw [List.countP_append, h0]
    simp [rowFor]
  have hdup2 : check_if_frame_exists ((generate_image st e1).1).db
      (fingerprintAt e2.now) = true := by
    rw [← hb]
    unfold check_if_frame_exists
    rw [List.any_eq_true]
    have hpos : 0 < ((generate_image st e1).1).db.countP
        (fun r => r.data_hash = fingerprintAt e1.now) := by
      unfold countHash at hcount1
      omega
    obtain ⟨a, ha, hpa⟩ := List.countP_pos_iff.mp hpos
    exact ⟨a, ha, hpa⟩
  rcases generate_image_shape (generate_image st e1).1 e2 with hnone2 | ⟨p2, u2, hcr2⟩
  · rw [generate_image_db_of_none _ _ hnone2]
    exact hcount1
  · have hchk := (generate_image_created_char _ e2 p2 u2 hcr2).1
    rw [hchk] at hdup2
    exact absurd hdup2 (by decide)

/-- C2 witness: from the empty store, a cycle at 21:30 followed by a cycle
at 21:31 (same 3-minute bucket) leaves exactly one record of that
fingerprint. -/
theorem C2_witness :
    fingerprintAt (okEnv ⟨2025, 8, 20, 21, 30⟩).now
      = fingerprintAt (okEnv ⟨2025, 8, 20, 21, 31⟩).now ∧
    countHash stEmpty.db (fingerprintAt (okEnv ⟨2025, 8, 20, 21, 30⟩).now) = 0 ∧
    stEmpty.db.length < MAX_IMAGES ∧
    (generate_image stEmpty (okEnv ⟨2025, 8, 20, 21, 30⟩)).2 ≠ (none, none) ∧
    countHash ((generate_image
        (generate_image stEmpty (okEnv ⟨2025, 8, 20, 21, 30⟩)).1
        (okEnv ⟨2025, 8, 20, 21, 31⟩)).1).db
      (fingerprintAt (okEnv ⟨2025, 8, 20, 21, 30⟩).now) = 1 :=
  ⟨by decide, by decide, by decide, by decide,
   C2_dedup_sequential stEmpty (okEnv ⟨2025, 8, 20, 21, 30⟩)
     (okEnv ⟨2025, 8, 20, 21, 31⟩) (by decide) (by decide) (by decide) (by decide)⟩

/-- C2 counterexample: two overlapping cycles of one bucket — both advisory
checks read the index before either insert — produce two records with the
same fingerprint (their minutes differ, so no UNIQUE column collides),
refuting the claim for overlapping cycles. -/
theorem C2_counterexample :
    fingerprintAt ⟨2025, 8, 20, 21, 30⟩ = fingerprintAt ⟨2025, 8, 20, 21, 31⟩ ∧
    countHash ((racedRun stEmpty
        (okEnvSaved ⟨2025, 8, 20, 21, 30⟩ "/tmp/rawA.png")
        (okEnvSaved ⟨2025, 8, 20, 21, 31⟩ "/tmp/rawB.png")).1).db
      (fingerprintAt ⟨2025, 8, 20, 21, 30⟩) = 2 :=
  ⟨by decide, by decide⟩

/-- C3 amended: after any generation cycle from a store within capacity
whose rowids respect the primary-key invariant, the record count stays at
most MAX_IMAGES — provided every eviction-time file deletion succeeds.  The
counterexample shows the bound fails when an eviction-time os.remove
raises, because that record's DELETE is skipped. -/
theorem C3_capacity_bound (st : Sys) (env : CycleEnv)
    (hids : st.db.Pairwise (fun a b => a.id < b.id))
    (hnext : ∀ r ∈ st.db, r.id < st.nextId)
    (hok : ∀ p, env.evictRemoveOk p = true)
    (hcap : st.db.length ≤ MAX_IMAGES) :
    ((generate_image st env).1).db.length ≤ MAX_IMAGES := by
  rcases generate_image_shape st env with hnone | ⟨p, u, hcr⟩
  · rw [generate_image_db_of_none st env hnone]
    exact hcap
  · obtain ⟨-, z, fs, hdb⟩ := generate_image_created_char st env p u hcr
    rw [hdb]
    by_cases hover : (st.db ++ [rowFor st env z]).length > MAX_IMAGES
    · have hids2 : (st.db ++ [rowFor st env z]).Pairwise (fun a b => a.id < b.id) := by
        rw [List.pairwise_append]
        refine ⟨hids, List.pairwise_singleton _ _, ?_⟩
        intro a ha b hb2
        rw [List.mem_singleton.mp hb2]
        exact hnext a ha
      have h1 := cleanup_over_capacity_length
        { db := st.db ++ [rowFor st env z], nextId := st.nextId + 1, files := fs }
        env.evictRemoveOk hids2 hok hover
      rw [h1]
    · have h1 := cleanup_old_images_noop
        { db := st.db ++ [rowFor st env z], nextId := st.nextId + 1, files := fs }
        env.evictRemoveOk (show (st.db ++ [rowFor st env z]).length ≤ MAX_IMAGES by omega)
      rw [h1]
      dsimp only
      omega

/-- C3 witness: a successful cycle from the empty store stays within
capacity. -/
theorem C3_witness :
    stEmpty.db.length ≤ MAX_IMAGES ∧
    ((generate_image stEmpty (okEnv ⟨2025, 8, 20, 21, 30⟩)).1).db.length ≤ MAX_IMAGES :=
  ⟨by decide,
   C3_capacity_bound stEmpty (okEnv ⟨2025, 8, 20, 21, 30⟩) List.Pairwise.nil
     (fun r hr => absurd hr (List.not_mem_nil r)) (fun p => rfl) (by decide)⟩

/-- C3 counterexample: from a full store of 500 records (reachable: it is
what 500 successful distinct-bucket cycles leave behind, and the eviction
logic reads only counts, timestamps and file paths), one further cycle
whose eviction-time os.remove fails completes with 501 records, violating
the claimed invariant. -/
theorem C3_counterexample :
    st500.db.length = 500 ∧
    MAX_IMAGES < ((generate_image st500 envC3).1).db.length := by
  refine ⟨?_, ?_⟩
  · show db500.length = 500
    unfold db500
    rw [List.length_map, List.length_range]
  · have h : ((generate_image st500 envC3).1).db.length = 501 := by rfl
    rw [h]
    decide

/-- C4 amended: when the index rejects the insert with a uniqueness
violation after the artifact has been moved into the store, the arbiter
reports the cycle as a non-fatal no-op — (None, None), no record created —
but it does NOT delete the just-moved file: the broad except block only
logs, and the file stays on disk under the canonical path (where startup
reconciliation, or the racing winner whose record shares that path,
accounts for it). -/
theorem C4_insert_rejected_after_move (st : Sys) (env : CycleEnv) (s : String) (z : Nat)
    (hr : env.render = .ok s z)
    (hdup : check_if_frame_exists st.db (fingerprintAt env.now) = false)
    (hmv : env.moveOk = true)
    (hviol : violatesUnique st.db (filenameAt env.now) (urlAt env.now) = true) :
    (generate_image st env).2 = (none, none) ∧
    ((generate_image st env).1).db = st.db ∧
    newPathAt env.now ∈ ((generate_image st env).1).files := by
  unfold generate_image generate_real_goes_image cycleBody
  rw [hr]
  dsimp only
  rw [hdup]
  unfold cycleAfterCheck
  rw [if_neg (by decide : ¬ (false = true))]
  rw [if_pos hmv]
  dsimp only
  have hins : insertImage st.db
      { id := st.nextId, filename := filenameAt env.now, filepath := newPathAt env.now,
        timestamp := env.now, satellite := SATELLITE, sector := "F",
        product := "ABI-L2-MCMIPF", band := "13", url_path := urlAt env.now,
        custom_text := env.custom_text.getD "", file_size := z,
        data_hash := fingerprintAt env.now } env.dbErr = .error .integrity := by
    unfold insertImage
    rw [if_pos hviol]
  rw [hins]
  dsimp only
  exact ⟨rfl, rfl, mem_addFile _ _⟩

/-- C4 witness: a store holding a stale record that occupies the target
url_path and filename under a different fingerprint lets the advisory check
pass; the insert is then rejected, the cycle reports (None, None), and the
moved file remains. -/
theorem C4_witness :
    check_if_frame_exists stC4.db (fingerprintAt (okEnv ⟨2025, 8, 20, 21, 30⟩).now) = false ∧
    violatesUnique stC4.db (filenameAt (okEnv ⟨2025, 8, 20, 21, 30⟩).now)
      (urlAt (okEnv ⟨2025, 8, 20, 21, 30⟩).now) = true ∧
    (generate_image stC4 (okEnv ⟨2025, 8, 20, 21, 30⟩)).2 = (none, none) ∧
    ((generate_image stC4 (okEnv ⟨2025, 8, 20, 21, 30⟩)).1).db = stC4.db ∧
    newPathAt (okEnv ⟨2025, 8, 20, 21, 30⟩).now
      ∈ ((generate_image stC4 (okEnv ⟨2025, 8, 20, 21, 30⟩)).1).files := by
  have h := C4_insert_rejected_after_move stC4 (okEnv ⟨2025, 8, 20, 21, 30⟩)
    "/tmp/raw.png" 5 rfl (by decide) rfl (by decide)
  exact ⟨by decide, by decide, h.1, h.2.1, h.2.2⟩

/-- C4 counterexample: in the race the spec names — both advisory checks
precede both inserts, same minute — the loser's insert hits the UNIQUE
constraint after its move, and the just-moved file is NOT deleted: it is
still on disk when the cycle ends, contradicting the claimed deletion. -/
theorem C4_counterexample :
    (racedRun stEmpty (okEnvSaved ⟨2025, 8, 20, 21, 30⟩ "/tmp/rawA.png")
        (okEnvSaved ⟨2025, 8, 20, 21, 30⟩ "/tmp/rawB.png")).2.2 = (none, none) ∧
    ((racedRun stEmpty (okEnvSaved ⟨2025, 8, 20, 21, 30⟩ "/tmp/rawA.png")
        (okEnvSaved ⟨2025, 8, 20, 21, 30⟩ "/tmp/rawB.png")).1).db.length = 1 ∧
    violatesUnique ((racedRun stEmpty (okEnvSaved ⟨2025, 8, 20, 21, 30⟩ "/tmp/rawA.png")
        (okEnvSaved ⟨2025, 8, 20, 21, 30⟩ "/tmp/rawB.png")).1).db
      (filenameAt ⟨2025, 8, 20, 21, 30⟩) (urlAt ⟨2025, 8, 20, 21, 30⟩) = true ∧
    newPathAt ⟨2025, 8, 20, 21, 30⟩
      ∈ ((racedRun stEmpty (okEnvSaved ⟨2025, 8, 20, 21, 30⟩ "/tmp/rawA.png")
        (okEnvSaved ⟨2025, 8, 20, 21, 30⟩ "/tmp/rawB.png")).1).files := by
  refine ⟨by decide, by decide, by decide, by decide⟩

/-- C8: startup reconciliation is idempotent.  Provided every orphan
deletion of the first run succeeded, a second consecutive run — whatever
its own deletion oracle — deletes no record and no file: it returns the
first run's output unchanged. -/
theorem C8_reconciliation_idempotent (db : List ImageRow) (files : List String)
    (ok1 ok2 : String → Bool)
    (h1 : ∀ p ∈ files, isPngInDir p = true →
      p ∉ db.map (fun r => r.filepath) → ok1 p = true) :
    cleanup_on_startup (cleanup_on_startup db files ok1).1
        (cleanup_on_startup db files ok1).2 ok2
      = cleanup_on_startup db files ok1 := by
  unfold cleanup_on_startup
  dsimp only
  simp only [Prod.mk.injEq]
  constructor
  · -- the second pass deletes no record
    rw [List.filter_eq_self]
    intro r hr
    rw [List.mem_filter] at hr
    obtain ⟨hrdb, hrA⟩ := hr
    rw [decide_eq_true_eq] at hrA
    rw [decide_eq_true_eq]
    rw [List.mem_filter] at hrA ⊢
    obtain ⟨hrfiles, hrpng⟩ := hrA
    refine ⟨?_, hrpng⟩
    rw [List.mem_filter]
    refine ⟨hrfiles, ?_⟩
    rw [decide_eq_true_eq]
    intro hcon
    exact hcon.2.1 (List.mem_map.mpr ⟨r, hrdb, rfl⟩)
  · -- the second pass deletes no file
    rw [List.filter_eq_self]
    intro p hp
    rw [List.mem_filter] at hp
    obtain ⟨hpfiles, hpkeep⟩ := hp
    rw [decide_eq_true_eq] at hpkeep
    rw [decide_eq_true_eq]
    intro hcon
    obtain ⟨hpA2, hpnotdb1, -⟩ := hcon
    rw [List.mem_filter] at hpA2
    obtain ⟨-, hppng⟩ := hpA2
    have hppng2 : isPngInDir p = true := hppng
    by_cases hdbf : p ∈ db.map (fun r => r.filepath)
    · obtain ⟨r, hrdb, hrp⟩ := List.mem_map.mp hdbf
      apply hpnotdb1
      apply List.mem_map.mpr
      refine ⟨r, ?_, hrp⟩
      rw [List.mem_filter]
      refine ⟨hrdb, ?_⟩
      rw [decide_eq_true_eq, List.mem_filter]
      rw [hrp]
      exact ⟨hpfiles, hppng2⟩
    · apply hpkeep
      refine ⟨?_, hdbf, h1 p hpfiles hppng2 hdbf⟩
      rw [List.mem_filter]
      exact ⟨hpfiles, hppng2⟩

/-- C8 witness: a store with one consistent pair, one dangling record, one
orphan file and one non-image file; the first reconciliation repairs the
drift and the second run returns its output unchanged, even though its own
deletions would all fail. -/
theorem C8_witness :
    (∀ p ∈ c8Files, isPngInDir p = true →
      p ∉ c8Db.map (fun r => r.filepath) → alwaysOk p = true) ∧
    cleanup_on_startup (cleanup_on_startup c8Db c8Files alwaysOk).1
        (cleanup_on_startup c8Db c8Files alwaysOk).2 neverOk
      = cleanup_on_startup c8Db c8Files alwaysOk :=
  ⟨by decide, C8_reconciliation_idempotent c8Db c8Files alwaysOk neverOk (by decide)⟩

end PettusPlots
